import Mathlib

/-!
Shallow embedding of the GitHub compliance engine (`src/compliance.py`):
the scoring rules, the event normalizers, and the aggregation/report
logic of `GitHubComplianceEngine`.

Modelling conventions:
* Python floats are modelled as exact rationals (`ℚ`); every score the
  engine produces is a small decimal, written here as a fraction.
* Raw provider records (JSON dicts) become structures.  A field the code
  reads with plain indexing (`record['k']`, a `KeyError` when missing) is
  an `Option`; a field read with `record.get(k, default)` is stored
  directly at its default-collapsed type.
* A Python loop that indexes into records inside a `try` block catching
  only `requests.exceptions.RequestException` is modelled as
  `Except Unit _`: a missing required field (`KeyError`) aborts the whole
  call, discarding the events accumulated so far, exactly as the
  uncaught exception does in the source.
* The HTTP fetches are out of scope (per the spec they are external
  collaborators); each `monitor_*` function takes the already-fetched
  record list as an argument.
-/

namespace Compliance

/-- Substring test on character lists: does `pat` occur contiguously in
`hay`?  Models Python's `pat in hay` for strings. -/
def substrB (pat : List Char) : List Char → Bool
  | [] => pat.isEmpty
  | c :: rest => pat.isPrefixOf (c :: rest) || substrB pat rest

/-- Python `pat in hay` (substring containment). -/
def str_contains (hay pat : String) : Bool :=
  substrB pat.toList hay.toList

/-- Python `s.lower()` (per-character lower-casing). -/
def to_lower (s : String) : String :=
  ⟨s.toList.map Char.toLower⟩

/-- Per-kind payload of `ComplianceEvent.details` (the source stores a
kind-specific `Dict[str, Any]`; each constructor carries exactly the keys
the corresponding monitor writes). -/
inductive EventDetails where
  | commit (sha message : String) (files_changed additions deletions : Nat)
  | pull (number : Nat) (title state : String) (merged : Bool)
      (mergeable : Option Bool) (review_comments : Nat)
  | fileOp (event_id : String) (payload_ref : String) (commits_count : Nat)
  | branch (name : String) (isProtected : Bool) (commit_sha : String)
  | tag (name : String) (commit_sha : String)
  deriving DecidableEq

/-- The `ComplianceEvent` dataclass of the source. -/
structure ComplianceEvent where
  timestamp : String
  event_type : String
  repository : String
  user : String
  details : EventDetails
  compliance_score : ℚ
  deriving DecidableEq

/-! ### Raw provider records -/

/-- One entry of a commit's `files` list; `additions`/`deletions` are read
with `.get(k, 0)`. -/
structure RawFile where
  additions : Nat
  deletions : Nat
  deriving DecidableEq

/-- A raw commit record.  Required accesses: `commit['sha']`,
`commit['commit']['message']`, `commit['commit']['committer']['date']`,
`commit['commit']['author']['name']`; `files` is read with
`.get('files', [])`. -/
structure RawCommit where
  sha : Option String
  message : Option String
  committer_date : Option String
  author_name : Option String
  files : Option (List RawFile)
  deriving DecidableEq

/-- A raw pull-request record.  Required accesses: `created_at`,
`user.login`, `number`, `title`, `state`; the rest are `.get` reads. -/
structure RawPR where
  created_at : Option String
  user_login : Option String
  number : Option Nat
  title : Option String
  state : Option String
  merged : Bool
  mergeable : Option Bool
  review_comments : Nat
  body : Option String
  additions : Nat
  deletions : Nat
  deriving DecidableEq

/-- The `payload` sub-dict of a repository event; `ref` is read with
`.get('ref', '')` and `commits` with `.get('commits', [])`. -/
structure RawPayload where
  ref : Option String
  commits : List String
  deriving DecidableEq

/-- A raw repository event.  Required accesses: `type`, `created_at`,
`actor.login`, `id`; `payload` is read with `.get('payload', {})`. -/
structure RawRepoEvent where
  type : Option String
  created_at : Option String
  actor_login : Option String
  id : Option String
  payload : Option RawPayload
  deriving DecidableEq

/-- A raw branch record.  Required: `name`, `commit.sha`; `protected` is
read with `.get` (absent behaves as `False`). -/
structure RawBranch where
  name : Option String
  isProtected : Bool
  commit_sha : Option String
  deriving DecidableEq

/-- A raw tag record.  Required: `name`, `commit.sha`. -/
structure RawTag where
  name : Option String
  commit_sha : Option String
  deriving DecidableEq

/-! ### Scoring rules -/

/-- The conventional-commit markers checked (as substrings of the
lower-cased message) by `_calculate_commit_compliance_score`. -/
def commit_markers : List String :=
  ["feat:", "fix:", "docs:", "style:", "refactor:", "test:", "chore:"]

/-- The arithmetic of `_calculate_commit_compliance_score` on the
message and the `files` length: start at 1.0; subtract 0.3 when the
message is shorter than 10 characters, 0.2 when the lower-cased message
contains no conventional marker, 0.2 when more than 20 files changed;
floor at 0. -/
def commit_score_core (msg : String) (files_changed : Nat) : ℚ :=
  let message := to_lower msg
  let score : ℚ := 1
  let score := if msg.length < 10 then score - 3/10 else score
  let score := if ¬ commit_markers.any (fun p => str_contains message p)
    then score - 2/10 else score
  let score := if 20 < files_changed then score - 2/10 else score
  max 0 score

/-- `_calculate_commit_compliance_score`; reading
`commit['commit']['message']` is a required dict access. -/
def calculate_commit_compliance_score (commit : RawCommit) : Except Unit ℚ :=
  match commit.message with
  | none => .error ()
  | some msg => .ok (commit_score_core msg (commit.files.getD []).length)

/-- `_calculate_pr_compliance_score`: start at 1.0; subtract 0.3 when the
body is absent, empty, or shorter than 20 characters, 0.2 when
`review_comments` is 0, 0.1 when `additions + deletions` exceeds 1000;
floor at 0.  All reads use `.get`, so this never raises. -/
def calculate_pr_compliance_score (pr : RawPR) : ℚ :=
  let score : ℚ := 1
  let score := if (match pr.body with
      | none => true
      | some b => b == "" || decide (b.length < 20)) = true
    then score - 3/10 else score
  let score := if pr.review_comments = 0 then score - 2/10 else score
  let score := if 1000 < pr.additions + pr.deletions then score - 1/10 else score
  max 0 score

/-- `len(event.get('payload', {}).get('commits', []))`. -/
def commits_count (ev : RawRepoEvent) : Nat :=
  ((ev.payload.getD ⟨none, []⟩).commits).length

/-- Core of the file-operation rule on the event's `type` string and
batched commit count: a push of more than 10 commits loses 0.2, a delete
is set to a flat 0.8, anything else keeps 1.0; floor at 0. -/
def file_op_score_core (t : String) (cc : Nat) : ℚ :=
  let score : ℚ := 1
  let score :=
    if t = "PushEvent" then (if 10 < cc then score - 2/10 else score)
    else if t = "DeleteEvent" then 8/10
    else score
  max 0 score

/-- `_calculate_file_operation_compliance_score`; reading `event['type']`
is a required dict access. -/
def calculate_file_operation_compliance_score (ev : RawRepoEvent) :
    Except Unit ℚ :=
  match ev.type with
  | none => .error ()
  | some t => .ok (file_op_score_core t (commits_count ev))

/-! ### Normalizers (the per-record bodies of the `monitor_*` loops) -/

/-- The body of the `monitor_commits` loop for one record: build a
`ComplianceEvent`, raising (`KeyError`) on any missing required field. -/
def normalize_commit (repo : String) (c : RawCommit) :
    Except Unit ComplianceEvent :=
  match c.committer_date, c.author_name, c.sha, c.message with
  | some ts, some author, some sha, some msg =>
    let files := c.files.getD []
    .ok { timestamp := ts, event_type := "commit", repository := repo,
          user := author,
          details := .commit sha msg files.length
            ((files.map RawFile.additions).foldl (· + ·) 0)
            ((files.map RawFile.deletions).foldl (· + ·) 0),
          compliance_score := commit_score_core msg files.length }
  | _, _, _, _ => .error ()

/-- `monitor_commits` (post-fetch part): normalize each fetched commit in
order; a missing required field aborts the whole call and discards the
events accumulated so far, as the uncaught `KeyError` does in the
source. -/
def monitor_commits (repo : String) : List RawCommit →
    Except Unit (List ComplianceEvent)
  | [] => .ok []
  | c :: rest =>
    match normalize_commit repo c with
    | .error u => .error u
    | .ok e =>
      match monitor_commits repo rest with
      | .error u => .error u
      | .ok es => .ok (e :: es)

/-- The body of the `monitor_pull_requests` loop for one record. -/
def normalize_pr (repo : String) (pr : RawPR) :
    Except Unit ComplianceEvent :=
  match pr.created_at, pr.user_login, pr.number, pr.title, pr.state with
  | some ts, some login, some num, some title, some st =>
    .ok { timestamp := ts, event_type := "pull_request", repository := repo,
          user := login,
          details := .pull num title st pr.merged pr.mergeable
            pr.review_comments,
          compliance_score := calculate_pr_compliance_score pr }
  | _, _, _, _, _ => .error ()

/-- `monitor_pull_requests` (post-fetch part). -/
def monitor_pull_requests (repo : String) : List RawPR →
    Except Unit (List ComplianceEvent)
  | [] => .ok []
  | pr :: rest =>
    match normalize_pr repo pr with
    | .error u => .error u
    | .ok e =>
      match monitor_pull_requests repo rest with
      | .error u => .error u
      | .ok es => .ok (e :: es)

/-- The repository-event types `monitor_file_operations` keeps. -/
def file_event_types : List String := ["PushEvent", "CreateEvent", "DeleteEvent"]

/-- The body of the `monitor_file_operations` loop for one record:
`.ok none` when the event type is filtered out, `.ok (some _)`
otherwise. -/
def normalize_repo_event (repo : String) (ev : RawRepoEvent) :
    Except Unit (Option ComplianceEvent) :=
  match ev.type with
  | none => .error ()
  | some t =>
    if file_event_types.contains t then
      match ev.created_at, ev.actor_login, ev.id with
      | some ts, some actor, some eid =>
        .ok (some
          { timestamp := ts, event_type := "file_" ++ to_lower t,
            repository := repo, user := actor,
            details := .fileOp eid ((ev.payload.getD ⟨none, []⟩).ref.getD "")
              (commits_count ev),
            compliance_score := file_op_score_core t (commits_count ev) })
      | _, _, _ => .error ()
    else .ok none

/-- `monitor_file_operations` (post-fetch part). -/
def monitor_file_operations (repo : String) : List RawRepoEvent →
    Except Unit (List ComplianceEvent)
  | [] => .ok []
  | ev :: rest =>
    match normalize_repo_event repo ev with
    | .error u => .error u
    | .ok e? =>
      match monitor_file_operations repo rest with
      | .error u => .error u
      | .ok es => .ok (match e? with | some e => e :: es | none => es)

/-- The body of the branches loop of `monitor_branches_and_tags`:
score 1.0 when protected, else 0.7; timestamp is `datetime.now()`,
passed in as `now`. -/
def normalize_branch (now repo : String) (b : RawBranch) :
    Except Unit ComplianceEvent :=
  match b.name, b.commit_sha with
  | some name, some sha =>
    .ok { timestamp := now, event_type := "branch_status",
          repository := repo, user := "system",
          details := .branch name b.isProtected sha,
          compliance_score := if b.isProtected then 1 else 7/10 }
  | _, _ => .error ()

/-- The body of the tags loop of `monitor_branches_and_tags`: flat 0.9. -/
def normalize_tag (now repo : String) (t : RawTag) :
    Except Unit ComplianceEvent :=
  match t.name, t.commit_sha with
  | some name, some sha =>
    .ok { timestamp := now, event_type := "tag_status", repository := repo,
          user := "system",
          details := .tag name sha,
          compliance_score := 9/10 }
  | _, _ => .error ()

/-- The branches loop of `monitor_branches_and_tags`. -/
def monitor_branches (now repo : String) : List RawBranch →
    Except Unit (List ComplianceEvent)
  | [] => .ok []
  | b :: rest =>
    match normalize_branch now repo b with
    | .error u => .error u
    | .ok e =>
      match monitor_branches now repo rest with
      | .error u => .error u
      | .ok es => .ok (e :: es)

/-- The tags loop of `monitor_branches_and_tags`. -/
def monitor_tags (now repo : String) : List RawTag →
    Except Unit (List ComplianceEvent)
  | [] => .ok []
  | t :: rest =>
    match normalize_tag now repo t with
    | .error u => .error u
    | .ok e =>
      match monitor_tags now repo rest with
      | .error u => .error u
      | .ok es => .ok (e :: es)

/-- `monitor_branches_and_tags` (post-fetch part): branch events then tag
events; a `KeyError` anywhere aborts the whole call. -/
def monitor_branches_and_tags (now repo : String) (bs : List RawBranch)
    (ts : List RawTag) : Except Unit (List ComplianceEvent) :=
  match monitor_branches now repo bs with
  | .error u => .error u
  | .ok be =>
    match monitor_tags now repo ts with
    | .error u => .error u
    | .ok te => .ok (be ++ te)

/-- `run_comprehensive_scan` restricted to one repository's fetched data:
concatenates the four monitors' events.  (The multi-repository loop only
concatenates further such lists and does pacing, which has no data
content.) -/
def scan_events (now repo : String) (cs : List RawCommit) (ps : List RawPR)
    (fs : List RawRepoEvent) (bs : List RawBranch) (ts : List RawTag) :
    Except Unit (List ComplianceEvent) :=
  match monitor_commits repo cs with
  | .error u => .error u
  | .ok e1 =>
    match monitor_pull_requests repo ps with
    | .error u => .error u
    | .ok e2 =>
      match monitor_file_operations repo fs with
      | .error u => .error u
      | .ok e3 =>
        match monitor_branches_and_tags now repo bs ts with
        | .error u => .error u
        | .ok e4 => .ok (e1 ++ e2 ++ e3 ++ e4)

/-! ### Dates and timestamp parsing

`_analyze_compliance_trends` computes
`datetime.datetime.fromisoformat(event.timestamp.replace('Z', '+00:00')).date()`
and silently skips events whose timestamp fails to parse.  We model the
`.date()` result as a year/month/day triple and implement the
ISO-8601 grammar `fromisoformat` accepts on the provider's timestamps:
`YYYY-MM-DD`, optionally followed by a `T` or space separator and
`HH:MM:SS`, an optional `.` fractional part, and an optional `+HH:MM` or
`-HH:MM` offset. -/

/-- A calendar date, the `.date()` of a parsed timestamp. -/
structure PDate where
  year : Nat
  month : Nat
  day : Nat
  deriving DecidableEq

/-- Chronological (lexicographic) order on dates. -/
def PDate.before (a b : PDate) : Prop :=
  a.year < b.year ∨ (a.year = b.year ∧
    (a.month < b.month ∨ (a.month = b.month ∧ a.day < b.day)))

instance (a b : PDate) : Decidable (a.before b) := by
  unfold PDate.before; infer_instance

/-- Gregorian month lengths (February has 29 days in leap years). -/
def days_in_month (y m : Nat) : Nat :=
  if m = 2 then
    (if y % 4 = 0 ∧ (y % 100 ≠ 0 ∨ y % 400 = 0) then 29 else 28)
  else if m = 4 ∨ m = 6 ∨ m = 9 ∨ m = 11 then 30
  else 31

/-- Numeric value of a digit list (assumed all digits). -/
def digits_to_nat (l : List Char) : Nat :=
  l.foldl (fun a c => 10 * a + (c.toNat - 48)) 0

/-- Parse the leading `YYYY-MM-DD` of a character list, validating the
calendar; returns the date and the remaining characters. -/
def parse_date_part : List Char → Option (PDate × List Char)
  | y1 :: y2 :: y3 :: y4 :: '-' :: m1 :: m2 :: '-' :: d1 :: d2 :: rest =>
    if ([y1, y2, y3, y4, m1, m2, d1, d2].all Char.isDigit) then
      let y := digits_to_nat [y1, y2, y3, y4]
      let m := digits_to_nat [m1, m2]
      let d := digits_to_nat [d1, d2]
      if 1 ≤ m ∧ m ≤ 12 ∧ 1 ≤ d ∧ d ≤ days_in_month y m then
        some (⟨y, m, d⟩, rest)
      else none
    else none
  | _ => none

/-- Validate an optional `±HH:MM` UTC-offset tail. -/
def parse_offset : List Char → Bool
  | [] => true
  | c :: h1 :: h2 :: ':' :: m1 :: m2 :: [] =>
    (c = '+' || c = '-') && ([h1, h2, m1, m2].all Char.isDigit) &&
      decide (digits_to_nat [h1, h2] < 24) &&
      decide (digits_to_nat [m1, m2] < 60)
  | _ => false

/-- Validate an optional fractional-seconds part followed by an optional
offset. -/
def parse_after_seconds (s : List Char) : Bool :=
  match s with
  | '.' :: rest =>
    let ds := rest.takeWhile Char.isDigit
    !ds.isEmpty && parse_offset (rest.dropWhile Char.isDigit)
  | _ => parse_offset s

/-- Validate an `HH:MM:SS[.ffffff][±HH:MM]` time-of-day tail. -/
def parse_time : List Char → Bool
  | h1 :: h2 :: ':' :: m1 :: m2 :: ':' :: s1 :: s2 :: rest =>
    ([h1, h2, m1, m2, s1, s2].all Char.isDigit) &&
      decide (digits_to_nat [h1, h2] < 24) &&
      decide (digits_to_nat [m1, m2] < 60) &&
      decide (digits_to_nat [s1, s2] < 60) &&
      parse_after_seconds rest
  | _ => false

/-- `datetime.fromisoformat(s).date()` on the grammar described above:
`some` the calendar date, `none` when the string fails to parse. -/
def parse_iso_date (s : String) : Option PDate :=
  match parse_date_part s.toList with
  | none => none
  | some (d, rest) =>
    match rest with
    | [] => some d
    | sep :: time_chars =>
      if (sep = 'T' ∨ sep = ' ') ∧ parse_time time_chars = true then some d
      else none

/-- Replace every occurrence of `pat` in the character list, scanning
left to right; the fuel argument (instantiated with the list length,
enough since every step consumes at least one character) keeps the
recursion structural. -/
def replace_go (pat rep : List Char) : Nat → List Char → List Char
  | 0, l => l
  | _ + 1, [] => []
  | fuel + 1, c :: rest =>
    if pat.isPrefixOf (c :: rest) && !pat.isEmpty then
      rep ++ replace_go pat rep fuel ((c :: rest).drop pat.length)
    else c :: replace_go pat rep fuel rest

/-- Python `s.replace(pat, rep)`: every occurrence, left to right. -/
def str_replace (s pat rep : String) : String :=
  ⟨replace_go pat.toList rep.toList s.length s.toList⟩

/-- The date of an event's timestamp after the source's
`.replace('Z', '+00:00')` preprocessing; `none` models the swallowed
parse exception. -/
def event_date (e : ComplianceEvent) : Option PDate :=
  parse_iso_date (str_replace e.timestamp "Z" "+00:00")

/-! ### Trend analysis -/

/-- Append a score to its date's bucket, preserving first-insertion key
order — the behaviour of `defaultdict(list)` keyed by date in
`_analyze_compliance_trends`. -/
def add_score (groups : List (PDate × List ℚ)) (d : PDate) (q : ℚ) :
    List (PDate × List ℚ) :=
  match groups with
  | [] => [(d, [q])]
  | (d0, qs) :: rest =>
    if d0 = d then (d0, qs ++ [q]) :: rest
    else (d0, qs) :: add_score rest d q

/-- The `daily_scores` grouping: per-day score lists in first-encounter
key order, unparseable timestamps skipped. -/
def daily_scores (events : List ComplianceEvent) : List (PDate × List ℚ) :=
  events.foldl
    (fun g e =>
      match event_date e with
      | some d => add_score g d e.compliance_score
      | none => g)
    []

/-- The `daily_averages` dict: per-day mean score, in the same key
order. -/
def daily_averages (events : List ComplianceEvent) : List (PDate × ℚ) :=
  (daily_scores events).map
    (fun p => (p.1, (p.2.foldl (· + ·) 0) / (p.2.length : ℚ)))

/-- `list(daily_averages.values())[0]` (0 when empty, guarded by the
length test in context). -/
def first_daily_average (events : List ComplianceEvent) : ℚ :=
  (((daily_averages events).map Prod.snd).head?).getD 0

/-- `list(daily_averages.values())[-1]` (0 when empty, guarded by the
length test in context). -/
def last_daily_average (events : List ComplianceEvent) : ℚ :=
  (((daily_averages events).map Prod.snd).getLast?).getD 0

/-- `_analyze_compliance_trends`: the daily averages together with the
trend label — `"improving"` when more than one day exists and the last
dict value exceeds the first, else `"stable"`. -/
def analyze_compliance_trends (events : List ComplianceEvent) :
    List (PDate × ℚ) × String :=
  (daily_averages events,
   if 1 < (daily_averages events).length ∧
       first_daily_average events < last_daily_average events
   then "improving" else "stable")

/-! ### Risk tiers, recommendations, summary, metrics, report -/

/-- `high_risk_events`: score `< 0.5`. -/
def high_risk_events (events : List ComplianceEvent) : List ComplianceEvent :=
  events.filter (fun e => decide (e.compliance_score < 1/2))

/-- `medium_risk_events`: `0.5 ≤ score < 0.8`. -/
def medium_risk_events (events : List ComplianceEvent) : List ComplianceEvent :=
  events.filter
    (fun e => decide (1/2 ≤ e.compliance_score ∧ e.compliance_score < 8/10))

/-- `low_risk_events`: `score ≥ 0.8`. -/
def low_risk_events (events : List ComplianceEvent) : List ComplianceEvent :=
  events.filter (fun e => decide (8/10 ≤ e.compliance_score))

/-- `_generate_recommendations`: two fixed commit advisories when the
given (high-risk) list holds a commit event, two PR advisories when it
holds a pull-request event, the single generic message when it ends up
with neither. -/
def generate_recommendations (high_risk : List ComplianceEvent) :
    List String :=
  let recs : List String := []
  let commit_issues := high_risk.filter (fun e => e.event_type == "commit")
  let pr_issues := high_risk.filter (fun e => e.event_type == "pull_request")
  let recs := if commit_issues ≠ [] then recs ++
    ["Improve commit message quality and follow conventional commit format",
     "Consider breaking down large commits into smaller, focused changes"]
    else recs
  let recs := if pr_issues ≠ [] then recs ++
    ["Ensure all pull requests have detailed descriptions",
     "Implement mandatory code reviews for all pull requests"]
    else recs
  if recs = [] then ["Overall compliance is good. Continue current practices."]
  else recs

/-- The `risk_distribution` dict. -/
structure RiskDistribution where
  high_risk : Nat
  medium_risk : Nat
  low_risk : Nat
  deriving DecidableEq

/-- The `risk_percentages` dict. -/
structure RiskPercentages where
  high_risk : ℚ
  medium_risk : ℚ
  low_risk : ℚ
  deriving DecidableEq

/-- The dict returned by `_generate_compliance_metrics` on a non-empty
event set. -/
structure ComplianceMetrics where
  risk_distribution : RiskDistribution
  risk_percentages : RiskPercentages
  compliance_trends : List (PDate × ℚ) × String
  recommendations : List String
  deriving DecidableEq

/-- `_generate_compliance_metrics`: `none` models the `{}` returned on an
empty event set. -/
def generate_compliance_metrics (events : List ComplianceEvent) :
    Option ComplianceMetrics :=
  let total := events.length
  if total = 0 then none
  else some
    { risk_distribution :=
        { high_risk := (high_risk_events events).length,
          medium_risk := (medium_risk_events events).length,
          low_risk := (low_risk_events events).length },
      risk_percentages :=
        { high_risk := ((high_risk_events events).length : ℚ) / total * 100,
          medium_risk := ((medium_risk_events events).length : ℚ) / total * 100,
          low_risk := ((low_risk_events events).length : ℚ) / total * 100 },
      compliance_trends := analyze_compliance_trends events,
      recommendations := generate_recommendations (high_risk_events events) }

/-- Increment a key's count in an insertion-ordered tally, the behaviour
of `defaultdict(int)`. -/
def bump (l : List (String × Nat)) (k : String) : List (String × Nat) :=
  match l with
  | [] => [(k, 1)]
  | (k0, n) :: rest =>
    if k0 = k then (k0, n + 1) :: rest else (k0, n) :: bump rest k

/-- Tally a key list in first-encounter order. -/
def tally (keys : List String) : List (String × Nat) :=
  keys.foldl bump []

/-- Stable descending insertion by count, modelling
`sorted(items, key=lambda x: x[1], reverse=True)`. -/
def insert_by_count_desc (p : String × Nat) (l : List (String × Nat)) :
    List (String × Nat) :=
  match l with
  | [] => [p]
  | x :: rest =>
    if x.2 < p.2 then p :: x :: rest else x :: insert_by_count_desc p rest

/-- `sorted(items, key=lambda x: x[1], reverse=True)` (stable). -/
def sort_by_count_desc (l : List (String × Nat)) : List (String × Nat) :=
  l.foldl (fun acc p => insert_by_count_desc p acc) []

/-- The dict returned by `_generate_summary`. -/
structure Summary where
  events_by_type : List (String × Nat)
  events_by_repository : List (String × Nat)
  top_contributors : List (String × Nat)
  average_compliance_score : ℚ
  deriving DecidableEq

/-- `_generate_summary`. -/
def generate_summary (events : List ComplianceEvent) : Summary :=
  { events_by_type := tally (events.map ComplianceEvent.event_type),
    events_by_repository := tally (events.map ComplianceEvent.repository),
    top_contributors :=
      (sort_by_count_desc (tally (events.map ComplianceEvent.user))).take 10,
    average_compliance_score :=
      if events = [] then 0
      else (events.map ComplianceEvent.compliance_score).foldl (· + ·) 0 /
        (events.length : ℚ) }

/-- Stable descending insertion by timestamp, modelling
`sorted(events, key=lambda x: x.timestamp, reverse=True)`. -/
def insert_by_timestamp_desc (e : ComplianceEvent)
    (l : List ComplianceEvent) : List ComplianceEvent :=
  match l with
  | [] => [e]
  | x :: rest =>
    if x.timestamp < e.timestamp then e :: x :: rest
    else x :: insert_by_timestamp_desc e rest

/-- `sorted(self.events, key=lambda x: x.timestamp, reverse=True)`. -/
def sort_by_timestamp_desc (events : List ComplianceEvent) :
    List ComplianceEvent :=
  events.foldl (fun acc e => insert_by_timestamp_desc e acc) []

/-- The report dict assembled by `generate_progress_report`. -/
structure Report where
  generated_at : String
  scan_period : String
  total_events : Nat
  repositories_scanned : Nat
  summary : Summary
  compliance_metrics : Option ComplianceMetrics
  detailed_events : List ComplianceEvent
  deriving DecidableEq

/-- `generate_progress_report` (file persistence out of scope): `none`
models the early-returned `{}` on an empty event set; `generated_at` is
`datetime.now()`, passed in as `now`. -/
def generate_progress_report (now : String) (events : List ComplianceEvent) :
    Option Report :=
  if events = [] then none
  else some
    { generated_at := now,
      scan_period := "Last 30 days",
      total_events := events.length,
      repositories_scanned :=
        ((events.map ComplianceEvent.repository).eraseDups).length,
      summary := generate_summary events,
      compliance_metrics := generate_compliance_metrics events,
      detailed_events := sort_by_timestamp_desc events }

/-! ### Sample records (concrete inputs used by the theorems below) -/

/-- A repository identifier used by the concrete examples. -/
def sample_repo : String := "octo/widgets"

/-- The spec's first pinned commit: message `"fix"`, 25 changed files. -/
def fix_commit : RawCommit :=
  ⟨some "a1", some "fix", some "2024-01-05T12:00:00Z", some "alice",
   some (List.replicate 25 ⟨1, 1⟩)⟩

/-- The spec's second pinned commit: a conventional message, 3 files. -/
def feat_commit : RawCommit :=
  ⟨some "b2", some "feat: add widget support for dashboard",
   some "2024-01-06T09:30:00Z", some "alice",
   some (List.replicate 3 ⟨2, 1⟩)⟩

/-- The event `monitor_commits` produces from `feat_commit`. -/
def feat_commit_event : ComplianceEvent :=
  { timestamp := "2024-01-06T09:30:00Z", event_type := "commit",
    repository := sample_repo, user := "alice",
    details := .commit "b2" "feat: add widget support for dashboard" 3 6 3,
    compliance_score := 1 }

/-- A commit record with no `commit.committer.date` (a structurally
required field). -/
def bad_commit : RawCommit :=
  ⟨some "c3", some "update", none, some "bob", none⟩

/-- The spec's pinned pull request: no body, zero review comments,
`additions + deletions = 1500`. -/
def no_body_pr : RawPR :=
  ⟨some "2024-01-03T00:00:00Z", some "bob", some 7, some "Big change",
   some "open", false, none, 0, none, 900, 600⟩

/-- A tag record used to witness the branch/tag score floor. -/
def sample_tag : RawTag := ⟨some "v1.0.0", some "d4"⟩

/-- The event `monitor_branches_and_tags` produces from `sample_tag`
at timestamp `"t0"`. -/
def sample_tag_event : ComplianceEvent :=
  { timestamp := "t0", event_type := "tag_status", repository := sample_repo,
    user := "system", details := .tag "v1.0.0" "d4",
    compliance_score := 9/10 }

/-- An event dated 2024-01-02 with score 0.9 (appearing first). -/
def trend_e1 : ComplianceEvent :=
  { timestamp := "2024-01-02T00:00:00Z", event_type := "commit",
    repository := sample_repo, user := "alice",
    details := .commit "a1" "fix" 1 1 1, compliance_score := 9/10 }

/-- An event dated 2024-01-01 with score 0.6 (appearing second). -/
def trend_e2 : ComplianceEvent :=
  { timestamp := "2024-01-01T00:00:00Z", event_type := "commit",
    repository := sample_repo, user := "alice",
    details := .commit "a2" "fix" 1 1 1, compliance_score := 6/10 }

/-- A high-risk event (score 0.3). -/
def ev_a : ComplianceEvent :=
  { timestamp := "2024-01-05T12:00:00Z", event_type := "commit",
    repository := sample_repo, user := "alice",
    details := .commit "a1" "fix" 25 25 25, compliance_score := 3/10 }

/-- A medium-risk event (score 0.6). -/
def ev_b : ComplianceEvent :=
  { timestamp := "2024-01-03T00:00:00Z", event_type := "pull_request",
    repository := sample_repo, user := "bob",
    details := .pull 7 "Big change" "open" false none 0,
    compliance_score := 6/10 }

/-- A low-risk event (score 0.9). -/
def ev_c : ComplianceEvent :=
  { timestamp := "t0", event_type := "tag_status", repository := sample_repo,
    user := "system", details := .tag "v1.0.0" "d4",
    compliance_score := 9/10 }

/-! ### Score-bound lemmas -/

/-- The commit rule only subtracts nonnegative penalties from 1 and
floors at 0. -/
lemma commit_score_core_bounds (msg : String) (fc : Nat) :
    0 ≤ commit_score_core msg fc ∧ commit_score_core msg fc ≤ 1 := by
  unfold commit_score_core
  refine ⟨le_max_left 0 _, max_le (by norm_num) ?_⟩
  split_ifs <;> norm_num

/-- The pull-request rule only subtracts nonnegative penalties from 1
and floors at 0. -/
lemma pr_score_bounds (pr : RawPR) :
    0 ≤ calculate_pr_compliance_score pr ∧
      calculate_pr_compliance_score pr ≤ 1 := by
  unfold calculate_pr_compliance_score
  refine ⟨le_max_left 0 _, max_le (by norm_num) ?_⟩
  split_ifs <;> norm_num

/-- Every file-operation score is 0.8 or 1. -/
lemma file_op_score_core_bounds (t : String) (cc : Nat) :
    7/10 ≤ file_op_score_core t cc ∧ file_op_score_core t cc ≤ 1 := by
  unfold file_op_score_core
  split_ifs <;> constructor <;>
    simp [le_max_iff, max_le_iff] <;> norm_num

/-! ### Per-monitor soundness lemmas -/

/-- A successfully normalized commit event has type `"commit"` and a
score in `[0, 1]`. -/
lemma normalize_commit_ok (repo : String) (c : RawCommit)
    (e : ComplianceEvent) (h : normalize_commit repo c = .ok e) :
    e.event_type = "commit" ∧ 0 ≤ e.compliance_score ∧
      e.compliance_score ≤ 1 := by
  rcases c with ⟨sha, msg, cd, an, files⟩
  rcases cd with _ | ts <;> rcases an with _ | author <;>
    rcases sha with _ | sha <;> rcases msg with _ | m <;>
    simp only [normalize_commit] at h <;>
    first
    | exact (Except.noConfusion h)
    | (injection h with h
       subst h
       exact ⟨rfl, commit_score_core_bounds m _⟩)

/-- A successfully normalized pull-request event has type
`"pull_request"` and a score in `[0, 1]`. -/
lemma normalize_pr_ok (repo : String) (pr : RawPR) (e : ComplianceEvent)
    (h : normalize_pr repo pr = .ok e) :
    e.event_type = "pull_request" ∧ 0 ≤ e.compliance_score ∧
      e.compliance_score ≤ 1 := by
  rcases pr with ⟨ca, ul, num, ti, st, mg, mb, rc, bd, ad, de⟩
  rcases ca with _ | ts <;> rcases ul with _ | login <;>
    rcases num with _ | n <;> rcases ti with _ | t <;>
    rcases st with _ | s <;>
    simp only [normalize_pr] at h <;>
    first
    | exact (Except.noConfusion h)
    | (injection h with h
       subst h
       exact ⟨rfl, pr_score_bounds _⟩)

/-- A repository event that passes the type filter scores at least 0.7
(and at most 1). -/
lemma normalize_repo_event_ok (repo : String) (ev : RawRepoEvent)
    (e : ComplianceEvent) (h : normalize_repo_event repo ev = .ok (some e)) :
    7/10 ≤ e.compliance_score ∧ e.compliance_score ≤ 1 := by
  rcases ev with ⟨ty, ca, al, id0, pl⟩
  rcases ty with _ | t
  · exact (Except.noConfusion h)
  · simp only [normalize_repo_event] at h
    by_cases hf : file_event_types.contains t
    · rw [if_pos hf] at h
      rcases ca with _ | ts <;> rcases al with _ | actor <;>
        rcases id0 with _ | eid <;>
        first
        | exact (Except.noConfusion h)
        | (injection h with h
           injection h with h
           subst h
           exact file_op_score_core_bounds t _)
    · rw [if_neg hf] at h
      injection h with h
      exact (Option.noConfusion h)

/-- A successfully normalized branch event scores 1 or 0.7. -/
lemma normalize_branch_ok (now repo : String) (b : RawBranch)
    (e : ComplianceEvent) (h : normalize_branch now repo b = .ok e) :
    7/10 ≤ e.compliance_score ∧ e.compliance_score ≤ 1 := by
  rcases b with ⟨nm, pr, sh⟩
  rcases nm with _ | nm <;> rcases sh with _ | sh <;>
    simp only [normalize_branch] at h <;>
    first
    | exact (Except.noConfusion h)
    | (injection h with h
       subst h
       by_cases hp : pr <;> simp [hp] <;> norm_num)

/-- A successfully normalized tag event scores 0.9. -/
lemma normalize_tag_ok (now repo : String) (t : RawTag)
    (e : ComplianceEvent) (h : normalize_tag now repo t = .ok e) :
    7/10 ≤ e.compliance_score ∧ e.compliance_score ≤ 1 := by
  rcases t with ⟨nm, sh⟩
  rcases nm with _ | nm <;> rcases sh with _ | sh <;>
    simp only [normalize_tag] at h <;>
    first
    | exact (Except.noConfusion h)
    | (injection h with h
       subst h
       norm_num)

/-- Every event emitted by `monitor_commits` has type `"commit"` and a
score in `[0, 1]`. -/
lemma monitor_commits_mem (repo : String) :
    ∀ (cs : List RawCommit) (evs : List ComplianceEvent),
      monitor_commits repo cs = .ok evs → ∀ e ∈ evs,
        e.event_type = "commit" ∧ 0 ≤ e.compliance_score ∧
          e.compliance_score ≤ 1 := by
  intro cs
  induction cs with
  | nil =>
    intro evs h e he
    simp only [monitor_commits, Except.ok.injEq] at h
    subst h
    simp at he
  | cons c rest ih =>
    intro evs h e he
    rcases hn : normalize_commit repo c with u | e0 <;>
      simp only [monitor_commits, hn] at h
    · exact Except.noConfusion h
    · rcases hr : monitor_commits repo rest with u | es <;>
        simp only [hr, Except.ok.injEq] at h
      · exact Except.noConfusion h
      · subst h
        rcases List.mem_cons.mp he with rfl | hmem
        · exact normalize_commit_ok repo c e hn
        · exact ih es hr e hmem

/-- Every event emitted by `monitor_pull_requests` has type
`"pull_request"` and a score in `[0, 1]`. -/
lemma monitor_pull_requests_mem (repo : String) :
    ∀ (ps : List RawPR) (evs : List ComplianceEvent),
      monitor_pull_requests repo ps = .ok evs → ∀ e ∈ evs,
        e.event_type = "pull_request" ∧ 0 ≤ e.compliance_score ∧
          e.compliance_score ≤ 1 := by
  intro ps
  induction ps with
  | nil =>
    intro evs h e he
    simp only [monitor_pull_requests, Except.ok.injEq] at h
    subst h
    simp at he
  | cons p rest ih =>
    intro evs h e he
    rcases hn : normalize_pr repo p with u | e0 <;>
      simp only [monitor_pull_requests, hn] at h
    · exact Except.noConfusion h
    · rcases hr : monitor_pull_requests repo rest with u | es <;>
        simp only [hr, Except.ok.injEq] at h
      · exact Except.noConfusion h
      · subst h
        rcases List.mem_cons.mp he with rfl | hmem
        · exact normalize_pr_ok repo p e hn
        · exact ih es hr e hmem

/-- Every event emitted by `monitor_file_operations` scores at least 0.7
(and at most 1). -/
lemma monitor_file_operations_mem (repo : String) :
    ∀ (fs : List RawRepoEvent) (evs : List ComplianceEvent),
      monitor_file_operations repo fs = .ok evs → ∀ e ∈ evs,
        7/10 ≤ e.compliance_score ∧ e.compliance_score ≤ 1 := by
  intro fs
  induction fs with
  | nil =>
    intro evs h e he
    simp only [monitor_file_operations, Except.ok.injEq] at h
    subst h
    simp at he
  | cons f rest ih =>
    intro evs h e he
    rcases hn : normalize_repo_event repo f with u | e? <;>
      simp only [monitor_file_operations, hn] at h
    · exact Except.noConfusion h
    · rcases hr : monitor_file_operations repo rest with u | es <;>
        simp only [hr, Except.ok.injEq] at h
      · exact Except.noConfusion h
      · subst h
        rcases e? with _ | e0
        · exact ih es hr e he
        · rcases List.mem_cons.mp he with rfl | hmem
          · exact normalize_repo_event_ok repo f e hn
          · exact ih es hr e hmem

/-- Every event emitted by the branches loop scores at least 0.7 (and at
most 1). -/
lemma monitor_branches_mem (now repo : String) :
    ∀ (bs : List RawBranch) (evs : List ComplianceEvent),
      monitor_branches now repo bs = .ok evs → ∀ e ∈ evs,
        7/10 ≤ e.compliance_score ∧ e.compliance_score ≤ 1 := by
  intro bs
  induction bs with
  | nil =>
    intro evs h e he
    simp only [monitor_branches, Except.ok.injEq] at h
    subst h
    simp at he
  | cons b rest ih =>
    intro evs h e he
    rcases hn : normalize_branch now repo b with u | e0 <;>
      simp only [monitor_branches, hn] at h
    · exact Except.noConfusion h
    · rcases hr : monitor_branches now repo rest with u | es <;>
        simp only [hr, Except.ok.injEq] at h
      · exact Except.noConfusion h
      · subst h
        rcases List.mem_cons.mp he with rfl | hmem
        · exact normalize_branch_ok now repo b e hn
        · exact ih es hr e hmem

/-- Every event emitted by the tags loop scores at least 0.7 (and at
most 1). -/
lemma monitor_tags_mem (now repo : String) :
    ∀ (ts : List RawTag) (evs : List ComplianceEvent),
      monitor_tags now repo ts = .ok evs → ∀ e ∈ evs,
        7/10 ≤ e.compliance_score ∧ e.compliance_score ≤ 1 := by
  intro ts
  induction ts with
  | nil =>
    intro evs h e he
    simp only [monitor_tags, Except.ok.injEq] at h
    subst h
    simp at he
  | cons t rest ih =>
    intro evs h e he
    rcases hn : normalize_tag now repo t with u | e0 <;>
      simp only [monitor_tags, hn] at h
    · exact Except.noConfusion h
    · rcases hr : monitor_tags now repo rest with u | es <;>
        simp only [hr, Except.ok.injEq] at h
      · exact Except.noConfusion h
      · subst h
        rcases List.mem_cons.mp he with rfl | hmem
        · exact normalize_tag_ok now repo t e hn
        · exact ih es hr e hmem

/-- Every event emitted by `monitor_branches_and_tags` scores at least
0.7 (and at most 1). -/
lemma monitor_branches_and_tags_mem (now repo : String)
    (bs : List RawBranch) (ts : List RawTag) (evs : List ComplianceEvent)
    (h : monitor_branches_and_tags now repo bs ts = .ok evs) :
    ∀ e ∈ evs, 7/10 ≤ e.compliance_score ∧ e.compliance_score ≤ 1 := by
  intro e he
  rcases hb : monitor_branches now repo bs with u | be <;>
    simp only [monitor_branches_and_tags, hb] at h
  · exact Except.noConfusion h
  · rcases ht : monitor_tags now repo ts with u | te <;>
      simp only [ht, Except.ok.injEq] at h
    · exact Except.noConfusion h
    · subst h
      rcases List.mem_append.mp he with hmem | hmem
      · exact monitor_branches_mem now repo bs be hb e hmem
      · exact monitor_tags_mem now repo ts te ht e hmem

/-- Events of a scan decompose into the four monitors' outputs. -/
lemma scan_events_cases (now repo : String) (cs : List RawCommit)
    (ps : List RawPR) (fs : List RawRepoEvent) (bs : List RawBranch)
    (ts : List RawTag) (evs : List ComplianceEvent)
    (h : scan_events now repo cs ps fs bs ts = .ok evs) :
    ∃ e1 e2 e3 e4, monitor_commits repo cs = .ok e1 ∧
      monitor_pull_requests repo ps = .ok e2 ∧
      monitor_file_operations repo fs = .ok e3 ∧
      monitor_branches_and_tags now repo bs ts = .ok e4 ∧
      evs = e1 ++ e2 ++ e3 ++ e4 := by
  rcases h1 : monitor_commits repo cs with u | e1 <;>
    simp only [scan_events, h1] at h
  · exact Except.noConfusion h
  · rcases h2 : monitor_pull_requests repo ps with u | e2 <;>
      simp only [h2] at h
    · exact Except.noConfusion h
    · rcases h3 : monitor_file_operations repo fs with u | e3 <;>
        simp only [h3] at h
      · exact Except.noConfusion h
      · rcases h4 : monitor_branches_and_tags now repo bs ts with u | e4 <;>
          simp only [h4, Except.ok.injEq] at h
        · exact Except.noConfusion h
        · subst h
          exact ⟨e1, e2, e3, e4, rfl, rfl, rfl, rfl, rfl⟩

/-! ### Claim theorems -/

/-- C1: every event produced by any scoring rule — commit, pull-request,
file-operation, branch, or tag — has a compliance score in `[0, 1]`. -/
theorem all_event_scores_in_unit_interval (now repo : String)
    (cs : List RawCommit) (ps : List RawPR) (fs : List RawRepoEvent)
    (bs : List RawBranch) (ts : List RawTag) (evs : List ComplianceEvent)
    (h : scan_events now repo cs ps fs bs ts = .ok evs) :
    ∀ e ∈ evs, 0 ≤ e.compliance_score ∧ e.compliance_score ≤ 1 := by
  intro e he
  obtain ⟨e1, e2, e3, e4, h1, h2, h3, h4, rfl⟩ :=
    scan_events_cases now repo cs ps fs bs ts evs h
  rcases List.mem_append.mp he with he3 | hm4
  · rcases List.mem_append.mp he3 with he2 | hm3
    · rcases List.mem_append.mp he2 with hm1 | hm2
      · exact (monitor_commits_mem repo cs e1 h1 e hm1).2
      · exact (monitor_pull_requests_mem repo ps e2 h2 e hm2).2
    · have hb := monitor_file_operations_mem repo fs e3 h3 e hm3
      exact ⟨le_trans (by norm_num) hb.1, hb.2⟩
  · have hb := monitor_branches_and_tags_mem now repo bs ts e4 h4 e hm4
    exact ⟨le_trans (by norm_num) hb.1, hb.2⟩

/-- Witness for C1: the scan of `feat_commit` succeeds and its event's
score lies in `[0, 1]`. -/
theorem all_event_scores_in_unit_interval_witness :
    0 ≤ feat_commit_event.compliance_score ∧
      feat_commit_event.compliance_score ≤ 1 :=
  all_event_scores_in_unit_interval "t0" sample_repo [feat_commit] [] [] []
    [] [feat_commit_event] rfl feat_commit_event (by simp)

/-- C10: every scanned event that is neither a commit nor a pull request
scores at least 0.7; hence the high-risk tier (score `< 0.5`) contains
only commit and pull-request events. -/
theorem high_risk_only_commit_or_pull_request (now repo : String)
    (cs : List RawCommit) (ps : List RawPR) (fs : List RawRepoEvent)
    (bs : List RawBranch) (ts : List RawTag) (evs : List ComplianceEvent)
    (h : scan_events now repo cs ps fs bs ts = .ok evs) :
    (∀ e ∈ evs, e.event_type ≠ "commit" → e.event_type ≠ "pull_request" →
      7/10 ≤ e.compliance_score) ∧
    (∀ e ∈ evs, e.compliance_score < 1/2 →
      e.event_type = "commit" ∨ e.event_type = "pull_request") := by
  obtain ⟨e1, e2, e3, e4, h1, h2, h3, h4, rfl⟩ :=
    scan_events_cases now repo cs ps fs bs ts evs h
  constructor
  · intro e he hnc hnp
    rcases List.mem_append.mp he with he3 | hm4
    · rcases List.mem_append.mp he3 with he2 | hm3
      · rcases List.mem_append.mp he2 with hm1 | hm2
        · exact absurd (monitor_commits_mem repo cs e1 h1 e hm1).1 hnc
        · exact absurd (monitor_pull_requests_mem repo ps e2 h2 e hm2).1 hnp
      · exact (monitor_file_operations_mem repo fs e3 h3 e hm3).1
    · exact (monitor_branches_and_tags_mem now repo bs ts e4 h4 e hm4).1
  · intro e he hlt
    rcases List.mem_append.mp he with he3 | hm4
    · rcases List.mem_append.mp he3 with he2 | hm3
      · rcases List.mem_append.mp he2 with hm1 | hm2
        · exact Or.inl (monitor_commits_mem repo cs e1 h1 e hm1).1
        · exact Or.inr (monitor_pull_requests_mem repo ps e2 h2 e hm2).1
      · have hb := (monitor_file_operations_mem repo fs e3 h3 e hm3).1
        linarith
    · have hb := (monitor_branches_and_tags_mem now repo bs ts e4 h4 e hm4).1
      linarith

/-- Witness for C10: a scanned tag event scores at least 0.7. -/
theorem high_risk_only_commit_or_pull_request_witness :
    7/10 ≤ sample_tag_event.compliance_score :=
  (high_risk_only_commit_or_pull_request "t0" sample_repo [] [] [] []
    [sample_tag] [sample_tag_event] rfl).1 sample_tag_event (by simp)
    (by decide) (by decide)

/-- `filter` keeps a head satisfying the predicate. -/
lemma filter_cons_pos {α : Type} (p : α → Bool) (a : α) (l : List α)
    (h : p a = true) : List.filter p (a :: l) = a :: List.filter p l := by
  simp [List.filter_cons, h]

/-- `filter` drops a head failing the predicate. -/
lemma filter_cons_neg {α : Type} (p : α → Bool) (a : α) (l : List α)
    (h : p a = false) : List.filter p (a :: l) = List.filter p l := by
  simp [List.filter_cons, h]

/-- The three risk-tier filters partition the event list: their lengths
sum to the total. -/
lemma tier_counts (events : List ComplianceEvent) :
    (high_risk_events events).length + (medium_risk_events events).length +
      (low_risk_events events).length = events.length := by
  induction events with
  | nil => rfl
  | cons e rest ih =>
    simp only [high_risk_events, medium_risk_events, low_risk_events] at ih ⊢
    by_cases h1 : e.compliance_score < 1/2
    · rw [filter_cons_pos (fun x => decide (x.compliance_score < 1/2)) e rest
          (decide_eq_true h1),
        filter_cons_neg (fun x => decide (1/2 ≤ x.compliance_score ∧
            x.compliance_score < 8/10)) e rest
          (decide_eq_false (fun hc => absurd hc.1 (not_le.mpr h1))),
        filter_cons_neg (fun x => decide (8/10 ≤ x.compliance_score)) e rest
          (decide_eq_false
            (fun hc => absurd (lt_of_le_of_lt hc h1) (by norm_num))),
        List.length_cons, List.length_cons]
      omega
    · by_cases h2 : e.compliance_score < 8/10
      · rw [filter_cons_neg (fun x => decide (x.compliance_score < 1/2)) e
            rest (decide_eq_false h1),
          filter_cons_pos (fun x => decide (1/2 ≤ x.compliance_score ∧
              x.compliance_score < 8/10)) e rest
            (decide_eq_true ⟨not_lt.mp h1, h2⟩),
          filter_cons_neg (fun x => decide (8/10 ≤ x.compliance_score)) e rest
            (decide_eq_false (not_le.mpr h2)),
          List.length_cons, List.length_cons]
        omega
      · rw [filter_cons_neg (fun x => decide (x.compliance_score < 1/2)) e
            rest (decide_eq_false h1),
          filter_cons_neg (fun x => decide (1/2 ≤ x.compliance_score ∧
              x.compliance_score < 8/10)) e rest
            (decide_eq_false (fun hc => h2 hc.2)),
          filter_cons_pos (fun x => decide (8/10 ≤ x.compliance_score)) e rest
            (decide_eq_true (not_lt.mp h2)),
          List.length_cons, List.length_cons]
        omega

/-- On a non-empty list the three tier percentages sum to exactly 100. -/
lemma tier_percentages (events : List ComplianceEvent) (h : events ≠ []) :
    ((high_risk_events events).length : ℚ) / events.length * 100 +
      ((medium_risk_events events).length : ℚ) / events.length * 100 +
      ((low_risk_events events).length : ℚ) / events.length * 100 = 100 := by
  have hlen : events.length ≠ 0 := fun hc => h (List.length_eq_zero.mp hc)
  have hq : ((events.length : ℚ)) ≠ 0 := Nat.cast_ne_zero.mpr hlen
  have hsum : ((high_risk_events events).length : ℚ) +
      ((medium_risk_events events).length : ℚ) +
      ((low_risk_events events).length : ℚ) = (events.length : ℚ) := by
    exact_mod_cast congrArg (Nat.cast : Nat → ℚ) (tier_counts events)
  field_simp
  linarith

/-- C2: on a non-empty event set the three risk tiers (high `< 0.5`,
medium `0.5 ≤ s < 0.8`, low `≥ 0.8`) are mutually exclusive and
exhaustive, their counts sum to the total, the percentages
`count / total * 100` sum to exactly 100, and the metrics dict built by
`_generate_compliance_metrics` reports exactly these sums. -/
theorem risk_tier_partition (events : List ComplianceEvent)
    (h : events ≠ []) :
    (high_risk_events events).length + (medium_risk_events events).length +
      (low_risk_events events).length = events.length ∧
    ((high_risk_events events).length : ℚ) / events.length * 100 +
      ((medium_risk_events events).length : ℚ) / events.length * 100 +
      ((low_risk_events events).length : ℚ) / events.length * 100 = 100 ∧
    (∀ e ∈ events,
      (e.compliance_score < 1/2 ∧
        ¬ (1/2 ≤ e.compliance_score ∧ e.compliance_score < 8/10) ∧
        ¬ 8/10 ≤ e.compliance_score) ∨
      ((1/2 ≤ e.compliance_score ∧ e.compliance_score < 8/10) ∧
        ¬ e.compliance_score < 1/2 ∧ ¬ 8/10 ≤ e.compliance_score) ∨
      (8/10 ≤ e.compliance_score ∧ ¬ e.compliance_score < 1/2 ∧
        ¬ (1/2 ≤ e.compliance_score ∧ e.compliance_score < 8/10))) ∧
    (∀ m, generate_compliance_metrics events = some m →
      m.risk_distribution.high_risk + m.risk_distribution.medium_risk +
        m.risk_distribution.low_risk = events.length ∧
      m.risk_percentages.high_risk + m.risk_percentages.medium_risk +
        m.risk_percentages.low_risk = 100) := by
  have hlen : events.length ≠ 0 := fun hc => h (List.length_eq_zero.mp hc)
  refine ⟨tier_counts events, tier_percentages events h, ?_, ?_⟩
  · intro e _
    by_cases h1 : e.compliance_score < 1/2
    · exact Or.inl ⟨h1, fun hc => absurd hc.1 (not_le.mpr h1),
        fun hc => absurd (lt_of_le_of_lt hc h1) (by norm_num)⟩
    · by_cases h2 : e.compliance_score < 8/10
      · exact Or.inr (Or.inl ⟨⟨not_lt.mp h1, h2⟩, h1, not_le.mpr h2⟩)
      · exact Or.inr (Or.inr ⟨not_lt.mp h2, h1, fun hc => h2 hc.2⟩)
  · intro m hm
    simp only [generate_compliance_metrics, hlen, if_false,
      Option.some.injEq] at hm
    subst hm
    exact ⟨tier_counts events, tier_percentages events h⟩

/-- Witness for C2: the tier counts of a concrete three-event list sum
to its length. -/
theorem risk_tier_partition_witness :
    (high_risk_events [ev_a, ev_b, ev_c]).length +
      (medium_risk_events [ev_a, ev_b, ev_c]).length +
      (low_risk_events [ev_a, ev_b, ev_c]).length =
      [ev_a, ev_b, ev_c].length :=
  (risk_tier_partition [ev_a, ev_b, ev_c] (by simp)).1

/-- C3: the commit rule starts at 1.0, subtracts 0.3 for a message
shorter than 10 characters, 0.2 when the lower-cased message contains no
conventional-commit marker, 0.2 for more than 20 changed files, floored
at 0; the commit with message `"fix"` and 25 files scores exactly 0.3 and
the commit with message `"feat: add widget support for dashboard"` and 3
files scores exactly 1.0. -/
theorem commit_rule_scores :
    (∀ (sha cd an : Option String) (msg : String)
        (files : Option (List RawFile)),
      calculate_commit_compliance_score ⟨sha, some msg, cd, an, files⟩ =
        .ok (max 0 ((1 : ℚ) - (if msg.length < 10 then 3/10 else 0)
          - (if commit_markers.any (fun p => str_contains (to_lower msg) p)
              then 0 else 2/10)
          - (if 20 < (files.getD []).length then 2/10 else 0)))) ∧
    calculate_commit_compliance_score fix_commit = .ok (3/10) ∧
    calculate_commit_compliance_score feat_commit = .ok 1 := by
  refine ⟨?_, ?_, ?_⟩
  · intro sha cd an msg files
    show Except.ok (commit_score_core msg (files.getD []).length) = _
    refine congrArg Except.ok ?_
    simp only [commit_score_core]
    split_ifs <;> norm_num
  · show Except.ok (commit_score_core "fix"
      (List.replicate 25 (⟨1, 1⟩ : RawFile)).length) = _
    refine congrArg Except.ok ?_
    have c1 : ("fix" : String).length < 10 := by decide
    have c2 : ¬ commit_markers.any
        (fun p => str_contains (to_lower "fix") p) = true := by decide
    have c3 : 20 < (List.replicate 25 (⟨1, 1⟩ : RawFile)).length := by decide
    simp only [commit_score_core, if_pos c1, if_pos c2, if_pos c3]
    rw [max_eq_right (by norm_num)]
    norm_num
  · show Except.ok (commit_score_core "feat: add widget support for dashboard"
      (List.replicate 3 (⟨2, 1⟩ : RawFile)).length) = _
    refine congrArg Except.ok ?_
    have c1 : ¬ ("feat: add widget support for dashboard" : String).length <
        10 := by decide
    have c2 : ¬ ¬ commit_markers.any (fun p =>
        str_contains (to_lower "feat: add widget support for dashboard") p) =
        true := by decide
    have c3 : ¬ 20 < (List.replicate 3 (⟨2, 1⟩ : RawFile)).length := by decide
    simp only [commit_score_core, if_neg c1, if_neg c2, if_neg c3]
    rw [max_eq_right (by norm_num)]

/-- C4: the pull-request rule starts at 1.0, subtracts 0.3 when the body
is absent or shorter than 20 characters, 0.2 when `review_comments` is 0,
0.1 when `additions + deletions` exceeds 1000, floored at 0; a pull
request with no body, no review comments and 1500 changed lines scores
exactly 0.4. -/
theorem pr_rule_scores :
    (∀ pr : RawPR, calculate_pr_compliance_score pr =
      max 0 ((1 : ℚ)
        - (if (pr.body.getD "").length < 20 then 3/10 else 0)
        - (if pr.review_comments = 0 then 2/10 else 0)
        - (if 1000 < pr.additions + pr.deletions then 1/10 else 0))) ∧
    calculate_pr_compliance_score no_body_pr = 4/10 := by
  constructor
  · intro pr
    have hcond : (match pr.body with
        | none => true
        | some b => b == "" || decide (b.length < 20)) =
        decide ((pr.body.getD "").length < 20) := by
      rcases pr.body with _ | b
      · decide
      · by_cases hbe : b = ""
        · subst hbe; decide
        · simp only [Option.getD_some, beq_eq_false_iff_ne.mpr hbe,
            Bool.false_or]
    simp only [calculate_pr_compliance_score, hcond, decide_eq_true_eq]
    split_ifs <;> norm_num
  · have c1 : ((match no_body_pr.body with
        | none => true
        | some b => b == "" || decide (b.length < 20)) = true) := by decide
    have c2 : no_body_pr.review_comments = 0 := by decide
    have c3 : 1000 < no_body_pr.additions + no_body_pr.deletions := by decide
    simp only [calculate_pr_compliance_score, if_pos c1, if_pos c2, if_pos c3]
    rw [max_eq_right (by norm_num)]
    norm_num

/-- C5: a `DeleteEvent` file operation scores exactly 0.8 regardless of
any other payload contents. -/
theorem delete_event_scores (created actor eid : Option String)
    (payload : Option RawPayload) :
    calculate_file_operation_compliance_score
      ⟨some "DeleteEvent", created, actor, eid, payload⟩ = .ok (8/10) := by
  show Except.ok (file_op_score_core "DeleteEvent"
    (commits_count ⟨some "DeleteEvent", created, actor, eid, payload⟩)) = _
  refine congrArg Except.ok ?_
  have hne : ¬ (("DeleteEvent" : String) = "PushEvent") := by decide
  simp only [file_op_score_core, if_neg hne, if_pos rfl]
  norm_num

/-- C6 (amended): the trend label is `"improving"` exactly when more
than one distinct day has parseable events and the average of the day
whose first event appears last in the event list exceeds the average of
the day whose first event appears first — dict-insertion (encounter)
order, not chronological order; in every other case it is `"stable"`. -/
theorem trend_label_encounter_order (events : List ComplianceEvent) :
    (analyze_compliance_trends events).2 = "improving" ↔
      (1 < (daily_averages events).length ∧
        first_daily_average events < last_daily_average events) := by
  simp only [analyze_compliance_trends]
  split_ifs with h
  · exact ⟨fun _ => h, fun _ => rfl⟩
  · exact ⟨fun habs => absurd habs (by decide), fun hc => absurd hc h⟩

/-- Counterexample to C6 as stated: two events on distinct days, the
chronologically later day (2024-01-02) averaging 0.9 and the earlier day
(2024-01-01) averaging 0.6 — so by the claim the label should be
`"improving"` — yet, because the later day's events appear first in the
list, the code labels the trend `"stable"`. -/
theorem trend_label_chronology_counterexample :
    event_date trend_e1 = some ⟨2024, 1, 2⟩ ∧
    event_date trend_e2 = some ⟨2024, 1, 1⟩ ∧
    PDate.before ⟨2024, 1, 1⟩ ⟨2024, 1, 2⟩ ∧
    daily_averages [trend_e1, trend_e2] =
      [(⟨2024, 1, 2⟩, 9/10), (⟨2024, 1, 1⟩, 6/10)] ∧
    (analyze_compliance_trends [trend_e1, trend_e2]).2 = "stable" := by
  have hd1 : event_date trend_e1 = some ⟨2024, 1, 2⟩ := by decide
  have hd2 : event_date trend_e2 = some ⟨2024, 1, 1⟩ := by decide
  have hne : ¬ ((⟨2024, 1, 2⟩ : PDate) = ⟨2024, 1, 1⟩) := by decide
  have hs1 : trend_e1.compliance_score = 9/10 := rfl
  have hs2 : trend_e2.compliance_score = 6/10 := rfl
  have hds : daily_scores [trend_e1, trend_e2] =
      [(⟨2024, 1, 2⟩, [9/10]), (⟨2024, 1, 1⟩, [6/10])] := rfl
  have hda : daily_averages [trend_e1, trend_e2] =
      [(⟨2024, 1, 2⟩, 9/10), (⟨2024, 1, 1⟩, 6/10)] := by
    simp only [daily_averages, hds, List.map_cons, List.map_nil,
      List.foldl, List.length_cons, List.length_nil]
    norm_num
  have hcond : ¬ (1 < (daily_averages [trend_e1, trend_e2]).length ∧
      first_daily_average [trend_e1, trend_e2] <
        last_daily_average [trend_e1, trend_e2]) := by
    intro hc
    have hlt := hc.2
    simp only [first_daily_average, last_daily_average, hda,
      List.map_cons, List.map_nil, List.head?_cons, Option.getD_some,
      List.getLast?_cons_cons, List.getLast?_singleton] at hlt
    norm_num at hlt
  exact ⟨hd1, hd2, by decide, hda,
    by simp only [analyze_compliance_trends, if_neg hcond]⟩

/-- C7 (amended): a record missing a structurally required field makes
the whole monitoring call abort with the uncaught `KeyError` — no event
of that call survives — rather than being skipped. -/
theorem malformed_record_aborts_call :
    (∀ (repo : String) (cs : List RawCommit),
      (∃ c ∈ cs, c.committer_date = none ∨ c.author_name = none ∨
        c.sha = none ∨ c.message = none) →
      monitor_commits repo cs = .error ()) ∧
    (∀ (repo : String) (ps : List RawPR),
      (∃ p ∈ ps, p.created_at = none ∨ p.user_login = none ∨
        p.number = none ∨ p.title = none ∨ p.state = none) →
      monitor_pull_requests repo ps = .error ()) := by
  constructor
  · intro repo cs
    induction cs with
    | nil => intro h; simp at h
    | cons c rest ih =>
      intro h
      rcases h with ⟨c0, hc0, hmiss⟩
      rcases List.mem_cons.mp hc0 with rfl | hmem
      · have hn : normalize_commit repo c0 = .error () := by
          rcases c0 with ⟨sha, msg, cd, an, files⟩
          rcases cd with _ | ts <;> rcases an with _ | author <;>
            rcases sha with _ | sha <;> rcases msg with _ | m <;>
            simp_all [normalize_commit]
        simp [monitor_commits, hn]
      · have hr : monitor_commits repo rest = .error () :=
          ih ⟨c0, hmem, hmiss⟩
        rcases hn : normalize_commit repo c with u | e0 <;>
          simp [monitor_commits, hn, hr]
  · intro repo ps
    induction ps with
    | nil => intro h; simp at h
    | cons p rest ih =>
      intro h
      rcases h with ⟨p0, hp0, hmiss⟩
      rcases List.mem_cons.mp hp0 with rfl | hmem
      · have hn : normalize_pr repo p0 = .error () := by
          rcases p0 with ⟨ca, ul, num, ti, st, mg, mb, rc, bd, ad, de⟩
          rcases ca with _ | ts <;> rcases ul with _ | login <;>
            rcases num with _ | n <;> rcases ti with _ | t <;>
            rcases st with _ | s <;>
            simp_all [normalize_pr]
        simp [monitor_pull_requests, hn]
      · have hr : monitor_pull_requests repo rest = .error () :=
          ih ⟨p0, hmem, hmiss⟩
        rcases hn : normalize_pr repo p with u | e0 <;>
          simp [monitor_pull_requests, hn, hr]

/-- Witness for C7 (amended): a single commit record with no committer
date makes `monitor_commits` return the error. -/
theorem malformed_record_aborts_call_witness :
    monitor_commits sample_repo [bad_commit] = .error () :=
  malformed_record_aborts_call.1 sample_repo [bad_commit]
    ⟨bad_commit, by simp, Or.inl rfl⟩

/-- Counterexample to C7 as stated: normalizing `[feat_commit,
bad_commit]` does not skip the malformed second record and keep the
first event — the whole call errors, while the same call without the
malformed record succeeds. -/
theorem malformed_record_not_skipped :
    monitor_commits sample_repo [feat_commit, bad_commit] = .error () ∧
    monitor_commits sample_repo [feat_commit] = .ok [feat_commit_event] :=
  ⟨rfl, rfl⟩

/-- C8: on an empty event set, report generation returns the
empty-report value (`{}` in the source, `none` here) rather than
raising, the metrics dict is likewise empty, and the summary of an empty
event set carries empty tallies and a zero average. -/
theorem empty_event_set_report (now : String) :
    generate_progress_report now [] = none ∧
    generate_compliance_metrics [] = none ∧
    generate_summary [] =
      { events_by_type := [], events_by_repository := [],
        top_contributors := [], average_compliance_score := 0 } := by
  refine ⟨rfl, rfl, rfl⟩

/-- C9: on the high-risk subset the engine returns the two fixed commit
advisories when a commit event is present, the two pull-request
advisories when a pull-request event is present (commit advisories
first), and exactly the one generic message when neither is present. -/
theorem recommendations_characterized (l : List ComplianceEvent) :
    generate_recommendations l =
      (if ∃ e ∈ l, e.event_type = "commit" then
        ["Improve commit message quality and follow conventional commit format",
         "Consider breaking down large commits into smaller, focused changes"]
        else []) ++
      (if ∃ e ∈ l, e.event_type = "pull_request" then
        ["Ensure all pull requests have detailed descriptions",
         "Implement mandatory code reviews for all pull requests"]
        else []) ++
      (if (∃ e ∈ l, e.event_type = "commit") ∨
          (∃ e ∈ l, e.event_type = "pull_request") then []
        else ["Overall compliance is good. Continue current practices."]) := by
  have hcf : (l.filter (fun e => e.event_type == "commit") ≠ []) ↔
      (∃ e ∈ l, e.event_type = "commit") := by
    simp only [Ne, List.filter_eq_nil_iff]
    push_neg
    simp only [beq_iff_eq]
  have hpf : (l.filter (fun e => e.event_type == "pull_request") ≠ []) ↔
      (∃ e ∈ l, e.event_type = "pull_request") := by
    simp only [Ne, List.filter_eq_nil_iff]
    push_neg
    simp only [beq_iff_eq]
  simp only [generate_recommendations]
  by_cases hc : ∃ e ∈ l, e.event_type = "commit" <;>
    by_cases hp : ∃ e ∈ l, e.event_type = "pull_request" <;>
    simp [hcf, hpf, hc, hp]

end Compliance
